import Mathlib

/-!
# Verification of the Active Window Details extension core

Shallow embedding of the window/process introspection and application-context
classification engine of the Active Window Details GNOME Shell extension
(`src/v45-46-47/extension.js`; the Evertrack variant in `src/unnamed/part_002`
implements the same Phase-1/Phase-2 methods with identical logic).

Modelling conventions:
* JavaScript strings are Lean `String`s (lists of Unicode scalar values).
  `s.includes(sub)` is substring containment; `s.split(sep)` splits on every
  occurrence of the (non-empty) separator; `s ? a : b` on a string is
  `if s = "" then b else a` (the only falsy string is `""`).
* The GNOME windowing collaborator is a `MetaWindow` snapshot; `get_title()`,
  `get_wm_class()` and `get_role()` may return `null`, modelled as `none`.
* An operation's boundary result is `Option String`: `some s` means the call
  hands the string `s` to the D-Bus `s`-typed out-argument; `none` means no
  string reaches the caller — an exception escaped, or the method returned a
  non-string (a raw `null` collaborator result faults when marshalled as `s`).
  Most methods guard every nullable access with `|| ""` and are total;
  `getWinFocusData` and `getWinClass` return the getter result raw.
* `/proc` reads are collaborator inputs carried in `ShellState`:
  `GLib.file_get_contents` either returns contents, returns `success = false`,
  or throws (the call sites catch the throw), modelled by `FileRead`;
  symlink-target queries collapse `null` results and caught throws to `none`.
* `JSON.stringify` / `JSON.parse` are modelled executably (`stringifyCore`,
  `jsonParse`).  `jsonParse` returns `none` where `JSON.parse` would throw;
  it covers the whitespace-free JSON that `stringifyCore` emits, which is the
  only JSON the source ever feeds back into `JSON.parse`.
* Two `Date.now()` reads inside one synchronous call are modelled as the same
  millisecond value `ShellState.now`.
-/

namespace AWD

/-- JS `s.includes(sub)`: `sub` occurs as a contiguous substring of `s`. -/
def jsIncludes (s sub : String) : Bool :=
  decide (sub.data <:+: s.data)

/-- JS `s.toLowerCase()` for the ASCII range the keyword lists rely on,
character by character (kept list-based so that it evaluates). -/
def jsToLower (s : String) : String :=
  ⟨s.data.map Char.toLower⟩

/-- JS `String.prototype.replace` with a plain-string pattern replaces only the
first occurrence of `pat` (used by the source as `browser.replace("-", "")`). -/
def jsReplaceFirstAux (pat repl : List Char) : List Char → List Char
  | [] => []
  | c :: rest =>
    if pat <+: (c :: rest) then repl ++ (c :: rest).drop pat.length
    else c :: jsReplaceFirstAux pat repl rest

/-- JS `s.replace(pat, repl)` for plain-string `pat` (first occurrence only). -/
def jsReplaceFirst (s pat repl : String) : String :=
  ⟨jsReplaceFirstAux pat.data repl.data s.data⟩

/-- Worker for JS `String.prototype.split` with a non-empty string separator
`s :: ss`; `acc` is the reversed current segment.  `fuel` starts at the input
length (each step consumes at least one character, so the fuel-exhausted
branch is unreachable); the recursion is structural on `fuel` so that the
function evaluates. -/
def jsSplitAux (s : Char) (ss : List Char) : Nat → List Char → List Char → List (List Char)
  | _, [], acc => [acc.reverse]
  | 0, l, acc => [acc.reverse ++ l]
  | fuel + 1, c :: rest, acc =>
    if (s :: ss) <+: (c :: rest) then
      acc.reverse :: jsSplitAux s ss fuel (rest.drop ss.length) []
    else
      jsSplitAux s ss fuel rest (c :: acc)

/-- JS `str.split(sep)` on character lists (the source never splits on `""`). -/
def jsSplitChars (sep l : List Char) : List (List Char) :=
  match sep with
  | [] => [l]
  | s :: ss => jsSplitAux s ss l.length l []

/-- JS `str.split(sep)`. -/
def jsSplit (str sep : String) : List String :=
  (jsSplitChars sep.data str.data).map fun part => (⟨part⟩ : String)

/-- The JS regex character class `\s` (ECMAScript white space and line
terminators). -/
def jsIsSpace (c : Char) : Bool :=
  c == ' ' || (9 ≤ c.toNat && c.toNat ≤ 13) || c.toNat == 0xa0 || c.toNat == 0x1680 ||
  (0x2000 ≤ c.toNat && c.toNat ≤ 0x200a) || c.toNat == 0x2028 || c.toNat == 0x2029 ||
  c.toNat == 0x202f || c.toNat == 0x205f || c.toNat == 0x3000 || c.toNat == 0xfeff

/-- The JS regex character class `[a-zA-Z0-9]`. -/
def isAlnumChar (c : Char) : Bool :=
  ('a' ≤ c && c ≤ 'z') || ('A' ≤ c && c ≤ 'Z') || ('0' ≤ c && c ≤ '9')

/-- One attempt of the regex `https?:\/\/[^\s]+` anchored at the current
position (greedy `[^\s]+`, preferring the `https` alternative). -/
def tryHttpAt (l : List Char) : Option (List Char) :=
  if ("https://").data <+: l then
    let run := (l.drop 8).takeWhile fun c => !jsIsSpace c
    if run.isEmpty then none else some (("https://").data ++ run)
  else if ("http://").data <+: l then
    let run := (l.drop 7).takeWhile fun c => !jsIsSpace c
    if run.isEmpty then none else some (("http://").data ++ run)
  else none

/-- JS `title.match(/(https?:\/\/[^\s]+)/)`: the leftmost match. -/
def matchHttpUrl : List Char → Option (List Char)
  | [] => none
  | c :: rest =>
    match tryHttpAt (c :: rest) with
    | some m => some m
    | none => matchHttpUrl rest

/-- JS `title.match(/([\/][^\s]*)/)`: a `/` followed by the maximal run of
non-space characters, at the leftmost possible position. -/
def fmPathMatch : List Char → Option (List Char)
  | [] => none
  | c :: rest =>
    if c = '/' then some ('/' :: rest.takeWhile fun d => !jsIsSpace d)
    else fmPathMatch rest

/-- Index of the last `.` in `R` that is directly followed by an alphanumeric
character (where the greedy, backtracking `[^\s]*` of the document regex ends
up). -/
def lastDotIdx (R : List Char) : Option Nat :=
  ((List.range R.length).filter fun k =>
    R.get? k == some '.' && ((R.get? (k + 1)).map isAlnumChar).getD false).getLast?

/-- The document regex attempted at a position whose character is `/`, with
`rest` the remainder: `[^\s]*` greedily takes the maximal non-space run and
backtracks to the last `.` followed by `[a-zA-Z0-9]+`. -/
def docMatchAt (rest : List Char) : Option (List Char) :=
  let R := rest.takeWhile fun d => !jsIsSpace d
  match lastDotIdx R with
  | some k => some ('/' :: (R.take k ++ ('.' :: (R.drop (k + 1)).takeWhile isAlnumChar)))
  | none => none

/-- JS `title.match(/([\/][^\s]*\.[a-zA-Z0-9]+)/)`: leftmost match. -/
def docPathMatch : List Char → Option (List Char)
  | [] => none
  | c :: rest =>
    if c = '/' then
      match docMatchAt rest with
      | some m => some m
      | none => docPathMatch rest
    else docPathMatch rest

/-! ## JSON values, `JSON.stringify`, and `JSON.parse` -/

/-- The JSON values the extension builds and serializes (strings, integral
numbers, booleans and objects cover everything the source produces). -/
inductive JsVal where
  | str : String → JsVal
  | num : Int → JsVal
  | bool : Bool → JsVal
  | obj : List (String × JsVal) → JsVal

/-- Lower-case hexadecimal digit, as emitted by `JSON.stringify` in `\u00XX`
escapes. -/
def hexDigit (n : Nat) : Char :=
  ("0123456789abcdef").data.getD n '0'

/-- `JSON.stringify` escaping of one character inside a string literal. -/
def escChar (c : Char) : List Char :=
  if c = '\x22' then ['\x5c', '\x22']
  else if c = '\x5c' then ['\x5c', '\x5c']
  else if c.toNat < 32 then
    if c = '\x08' then ['\x5c', 'b']
    else if c = '\x09' then ['\x5c', 't']
    else if c = '\x0a' then ['\x5c', 'n']
    else if c = '\x0c' then ['\x5c', 'f']
    else if c = '\x0d' then ['\x5c', 'r']
    else ['\x5c', 'u', '0', '0', hexDigit (c.toNat / 16), hexDigit (c.toNat % 16)]
  else [c]

/-- `JSON.stringify` escaping of a whole string body. -/
def escapeChars : List Char → List Char
  | [] => []
  | c :: cs => escChar c ++ escapeChars cs

/-- A JSON string literal, quotes included. -/
def stringifyString (s : String) : List Char :=
  '\x22' :: (escapeChars s.data ++ ['\x22'])

mutual

/-- `JSON.stringify`, character-list form (no insignificant whitespace, like
the JS builtin with no spacing argument). -/
def stringifyCore : JsVal → List Char
  | .str s => stringifyString s
  | .num n => (toString n).data
  | .bool b => if b then ['t', 'r', 'u', 'e'] else ['f', 'a', 'l', 's', 'e']
  | .obj ms => '\x7b' :: (stringifyMembers ms ++ ['\x7d'])

/-- Members of a JSON object, comma-separated. -/
def stringifyMembers : List (String × JsVal) → List Char
  | [] => []
  | [(k, v)] => stringifyString k ++ (':' :: stringifyCore v)
  | (k, v) :: m :: ms =>
    stringifyString k ++ (':' :: (stringifyCore v ++ (',' :: stringifyMembers (m :: ms))))

end

/-- `JSON.stringify` producing a `String`. -/
def stringifyJson (v : JsVal) : String :=
  ⟨stringifyCore v⟩

/-- Value of a hexadecimal digit character. -/
def hexVal (c : Char) : Option Nat :=
  if '0' ≤ c && c ≤ '9' then some (c.toNat - ('0').toNat)
  else if 'a' ≤ c && c ≤ 'f' then some (c.toNat - ('a').toNat + 10)
  else if 'A' ≤ c && c ≤ 'F' then some (c.toNat - ('A').toNat + 10)
  else none

/-- Parse the body of a JSON string literal after the opening quote; returns
the decoded characters and the input after the closing quote.  Mirrors
`JSON.parse`: raw control characters are rejected, escapes are decoded
(surrogate `\uXXXX` values are outside the model; the stringifier never
emits them). -/
def parseStringBody : List Char → Option (List Char × List Char)
  | [] => none
  | c :: rest =>
    if c = '\x22' then some ([], rest)
    else if c = '\x5c' then
      match rest with
      | [] => none
      | e :: rest2 =>
        if e = '\x22' then (parseStringBody rest2).map fun p => ('\x22' :: p.1, p.2)
        else if e = '\x5c' then (parseStringBody rest2).map fun p => ('\x5c' :: p.1, p.2)
        else if e = '/' then (parseStringBody rest2).map fun p => ('/' :: p.1, p.2)
        else if e = 'b' then (parseStringBody rest2).map fun p => ('\x08' :: p.1, p.2)
        else if e = 't' then (parseStringBody rest2).map fun p => ('\x09' :: p.1, p.2)
        else if e = 'n' then (parseStringBody rest2).map fun p => ('\x0a' :: p.1, p.2)
        else if e = 'f' then (parseStringBody rest2).map fun p => ('\x0c' :: p.1, p.2)
        else if e = 'r' then (parseStringBody rest2).map fun p => ('\x0d' :: p.1, p.2)
        else if e = 'u' then
          match rest2 with
          | h1 :: h2 :: h3 :: h4 :: rest3 =>
            match hexVal h1, hexVal h2, hexVal h3, hexVal h4 with
            | some v1, some v2, some v3, some v4 =>
              let n := ((v1 * 16 + v2) * 16 + v3) * 16 + v4
              if n < 0xd800 then
                (parseStringBody rest3).map fun p => (Char.ofNat n :: p.1, p.2)
              else none
            | _, _, _, _ => none
          | _ => none
        else none
    else if c.toNat < 32 then none
    else (parseStringBody rest).map fun p => (c :: p.1, p.2)

/-- Decimal digit run to a natural number. -/
def digitsToNat (ds : List Char) : Nat :=
  ds.foldl (fun acc c => acc * 10 + (c.toNat - ('0').toNat)) 0

mutual

/-- Parse one JSON value (fuel-indexed; fuel bounds the recursion depth and is
chosen larger than the input in `jsonParse`). -/
def parseJsonV : Nat → List Char → Option (JsVal × List Char)
  | 0, _ => none
  | _ + 1, [] => none
  | fuel + 1, c :: rest =>
    if c = '\x22' then
      (parseStringBody rest).map fun p => (JsVal.str ⟨p.1⟩, p.2)
    else if c = 't' then
      match rest with
      | 'r' :: 'u' :: 'e' :: r => some (JsVal.bool true, r)
      | _ => none
    else if c = 'f' then
      match rest with
      | 'a' :: 'l' :: 's' :: 'e' :: r => some (JsVal.bool false, r)
      | _ => none
    else if c = '\x7b' then
      match rest with
      | '\x7d' :: r => some (JsVal.obj [], r)
      | _ => (parseJsonMembers fuel rest).map fun p => (JsVal.obj p.1, p.2)
    else if c.isDigit then
      some (JsVal.num (digitsToNat ((c :: rest).takeWhile Char.isDigit)),
            (c :: rest).dropWhile Char.isDigit)
    else if c = '-' then
      match rest with
      | d :: _ =>
        if d.isDigit then
          some (JsVal.num (-(digitsToNat (rest.takeWhile Char.isDigit))),
                rest.dropWhile Char.isDigit)
        else none
      | [] => none
    else none

/-- Parse the members of a JSON object after the opening brace (at least one
member; the empty object is handled in `parseJsonV`). -/
def parseJsonMembers : Nat → List Char → Option (List (String × JsVal) × List Char)
  | 0, _ => none
  | fuel + 1, l =>
    match l with
    | '\x22' :: rest =>
      match parseStringBody rest with
      | some (key, rest2) =>
        match rest2 with
        | ':' :: rest3 =>
          match parseJsonV fuel rest3 with
          | some (v, rest4) =>
            match rest4 with
            | ',' :: rest5 =>
              (parseJsonMembers fuel rest5).map fun p => (((⟨key⟩ : String), v) :: p.1, p.2)
            | '\x7d' :: rest5 => some ([((⟨key⟩ : String), v)], rest5)
            | _ => none
          | none => none
        | _ => none
      | none => none
    | _ => none

end

/-- Model of `JSON.parse`: `none` exactly where the JS builtin would throw.
The whole input must be consumed. -/
def jsonParse (s : String) : Option JsVal :=
  match parseJsonV (s.data.length + 2) s.data with
  | some (v, []) => some v
  | _ => none

/-- Association lookup used to state "the serialized object has field `k`". -/
def assocFind (key : String) : List (String × JsVal) → Option JsVal
  | [] => none
  | (k, v) :: rest => if k = key then some v else assocFind key rest

/-- The field of a JSON object, if present. -/
def JsVal.field? : JsVal → String → Option JsVal
  | .obj ms, key => assocFind key ms
  | _, _ => none

/-! ## The windowing / process collaborators (`ShellState`) -/

/-- `get_frame_rect()` of a window. -/
structure GeomRect where
  x : Int
  y : Int
  width : Int
  height : Int

/-- `get_workspace()` result: the 0-based index, and the custom name when the
`meta_workspace` object is present (`none` models an absent `meta_workspace`,
where the source falls back to `Workspace ${index + 1}`). -/
structure WorkspaceInfo where
  index : Nat
  metaName? : Option String

/-- The focused `meta_window` snapshot; `get_title()`, `get_wm_class()` and
`get_role()` may be `null` (`none`). -/
structure MetaWindow where
  title? : Option String
  wmClass? : Option String
  role? : Option String
  pid : Nat
  frame : GeomRect
  workspace? : Option WorkspaceInfo

/-- Outcome of one `GLib.file_get_contents` call at a call site wrapped in
`try`/`catch`: decoded contents, a `success = false` return, or a caught
throw. -/
inductive FileRead where
  | ok (contents : String)
  | nofile
  | thrown

/-- All collaborator-supplied data one synchronous call can observe.
`focused?` is `find(w => w.has_focus())` over the window actors; the `proc*`
fields are the per-PID `/proc` records (symlink-target queries collapse `null`
and caught throws to `none`); `now` is `Date.now()`. -/
structure ShellState where
  focused? : Option MetaWindow
  procComm : Nat → FileRead
  procExe : Nat → FileRead
  procExeLink : Nat → Option String
  procCmdline : Nat → FileRead
  procCwdLink : Nat → Option String
  procStat : Nat → FileRead
  now : Nat

/-! ## Application classifier (the detection chain of `getAppContext` and the
per-extractor checks; the keyword lists are copied from the source) -/

def browserClasses : List String :=
  ["firefox", "chrome", "brave-browser", "chromium", "safari", "edge"]

def ideClasses : List String :=
  ["code", "cursor", "atom", "sublime", "intellij", "pycharm", "vscode", "vim", "emacs", "gedit"]

def terminalClasses : List String :=
  ["gnome-terminal", "terminal", "konsole", "xterm", "alacritty", "terminator"]

def fileManagerClasses : List String :=
  ["nautilus", "files", "dolphin", "thunar", "pcmanfm", "nemo"]

def documentClasses : List String :=
  ["evince", "okular", "libreoffice", "writer", "calc", "impress", "draw", "math", "acroread", "xpdf"]

/-- `browserClasses.some(browser => windowClass.toLowerCase().includes(browser)
|| windowClass.toLowerCase().includes(browser.replace("-", "")))`. -/
def isBrowserClass (windowClass : String) : Bool :=
  browserClasses.any fun browser =>
    jsIncludes (jsToLower windowClass) browser ||
    jsIncludes (jsToLower windowClass) (jsReplaceFirst browser "-" "")

/-- `ideClasses.some(ide => windowClass.toLowerCase().includes(ide))`. -/
def isIdeClass (windowClass : String) : Bool :=
  ideClasses.any fun ide => jsIncludes (jsToLower windowClass) ide

/-- `terminalClasses.some(term => windowClass.toLowerCase().includes(term))`. -/
def isTerminalClass (windowClass : String) : Bool :=
  terminalClasses.any fun term => jsIncludes (jsToLower windowClass) term

/-- `fileManagerClasses.some(fm => windowClass.toLowerCase().includes(fm))`. -/
def isFileManagerClass (windowClass : String) : Bool :=
  fileManagerClasses.any fun fm => jsIncludes (jsToLower windowClass) fm

/-- `documentClasses.some(doc => windowClass.toLowerCase().includes(doc))`. -/
def isDocumentClass (windowClass : String) : Bool :=
  documentClasses.any fun doc => jsIncludes (jsToLower windowClass) doc

/-- The `appType` assigned by `getAppContext`'s if/else-if detection chain. -/
def appTypeOf (windowClass : String) : String :=
  if isBrowserClass windowClass then "browser"
  else if isIdeClass windowClass then "ide"
  else if isTerminalClass windowClass then "terminal"
  else if isFileManagerClass windowClass then "file_manager"
  else if isDocumentClass windowClass then "document"
  else "unknown"

/-! ## Phase 2 extractors (the JSON object each builds for a focused window) -/

/-- URL extraction of `getBrowserUrl`: strategy 1 splits on `" - "` and takes
the first segment containing `http`/`www`; strategy 2 regex-extracts the
first `https?://\S+` run. -/
def browserUrlFromTitle (windowTitle : String) : String :=
  if jsIncludes windowTitle " - " &&
      (jsIncludes windowTitle "http" || jsIncludes windowTitle "www") then
    ((jsSplit windowTitle " - ").find? fun part =>
      jsIncludes part "http" || jsIncludes part "www").getD ""
  else if jsIncludes windowTitle "://" then
    match matchHttpUrl windowTitle.data with
    | some m => ⟨m⟩
    | none => ""
  else ""

/-- The object `getBrowserUrl` serializes for a focused window. -/
def getBrowserUrlJson (windowClass windowTitle : String) : JsVal :=
  if !isBrowserClass windowClass then
    .obj [("error", .str "Not a browser window"), ("windowClass", .str windowClass),
          ("isBrowser", .bool false)]
  else
    let url := browserUrlFromTitle windowTitle
    .obj [("url", .str url), ("title", .str windowTitle), ("browserType", .str windowClass),
          ("isBrowser", .bool true),
          ("extractionMethod",
            .str (if url = "" then "title_parsing_failed" else "window_title"))]

/-- The object `getBrowserTabInfo` serializes for a focused window (note:
no browser check at all). -/
def getBrowserTabInfoJson (windowClass windowTitle : String) (now : Nat) : JsVal :=
  .obj [("title", .str windowTitle), ("windowClass", .str windowClass),
        ("timestamp", .num now),
        ("note", .str "Full tab details require browser-specific integration")]

/-- The object `getIdeProject` serializes; `cwdTarget` is the resolved
`/proc/pid/cwd` symlink target. -/
def getIdeProjectJson (windowClass windowTitle : String) (cwdTarget : Option String) : JsVal :=
  if !isIdeClass windowClass then
    .obj [("error", .str "Not an IDE window"), ("windowClass", .str windowClass),
          ("isIde", .bool false)]
  else
    let projectPath := cwdTarget.getD ""
    let projectName :=
      if projectPath = "" then "" else ((jsSplit projectPath "/").getLast?).getD ""
    .obj [("projectPath", .str projectPath), ("projectName", .str projectName),
          ("ideType", .str windowClass), ("windowTitle", .str windowTitle),
          ("isIde", .bool true)]

/-- The `activeFile` heuristic of `getIdeActiveFile`: the first `" - "`
segment, accepted only if it has a `.`, no `/`, and fewer than 50
characters. -/
def ideActiveFileOf (windowTitle : String) : String :=
  if jsIncludes windowTitle " - " then
    let firstPart := (jsSplit windowTitle " - ").headD ""
    if jsIncludes firstPart "." && !jsIncludes firstPart "/" && firstPart.length < 50 then
      firstPart
    else ""
  else ""

/-- The object `getIdeActiveFile` serializes (note: no IDE check at all). -/
def getIdeActiveFileJson (windowClass windowTitle : String) : JsVal :=
  let activeFile := ideActiveFileOf windowTitle
  .obj [("activeFile", .str activeFile), ("windowTitle", .str windowTitle),
        ("ideType", .str windowClass),
        ("extractionMethod",
          .str (if activeFile = "" then "title_parsing_failed" else "window_title"))]

/-- The object `getTerminalCommand` serializes. -/
def getTerminalCommandJson (windowClass windowTitle : String) (cwdTarget : Option String) : JsVal :=
  if !isTerminalClass windowClass then
    .obj [("error", .str "Not a terminal window"), ("windowClass", .str windowClass),
          ("isTerminal", .bool false)]
  else
    .obj [("workingDirectory", .str (cwdTarget.getD "")), ("windowTitle", .str windowTitle),
          ("terminalType", .str windowClass), ("isTerminal", .bool true),
          ("note", .str "Command history requires shell-specific integration")]

/-- The object `getFileManagerPath` serializes. -/
def getFileManagerPathJson (windowClass windowTitle : String) : JsVal :=
  if !isFileManagerClass windowClass then
    .obj [("error", .str "Not a file manager window"), ("windowClass", .str windowClass),
          ("isFileManager", .bool false)]
  else
    let currentPath :=
      if jsIncludes windowTitle "/" then
        match fmPathMatch windowTitle.data with
        | some m => (⟨m⟩ : String)
        | none => ""
      else ""
    .obj [("currentPath", .str currentPath), ("windowTitle", .str windowTitle),
          ("fileManagerType", .str windowClass), ("isFileManager", .bool true),
          ("extractionMethod",
            .str (if currentPath = "" then "title_parsing_failed" else "window_title"))]

/-- The `documentPath` value computed by `getDocumentPath`: the regex strategy
runs whenever the title contains `/`; the `" - "` fallback runs only
otherwise. -/
def documentPathOf (windowTitle : String) : String :=
  if jsIncludes windowTitle "/" then
    match docPathMatch windowTitle.data with
    | some m => ⟨m⟩
    | none => ""
  else if jsIncludes windowTitle " - " then
    let docPart := (jsSplit windowTitle " - ").headD ""
    if jsIncludes docPart "." then docPart else ""
  else ""

/-- The object `getDocumentPath` serializes (mismatch error text is
`"Not a document application"`, unlike the other four extractors). -/
def getDocumentPathJson (windowClass windowTitle : String) : JsVal :=
  if !isDocumentClass windowClass then
    .obj [("error", .str "Not a document application"), ("windowClass", .str windowClass),
          ("isDocument", .bool false)]
  else
    let documentPath := documentPathOf windowTitle
    .obj [("documentPath", .str documentPath), ("windowTitle", .str windowTitle),
          ("documentType", .str windowClass), ("isDocument", .bool true),
          ("extractionMethod",
            .str (if documentPath = "" then "title_parsing_failed" else "window_title"))]

/-! ## The exported operations -/

/-- `getWinFocusData`: `return focusedWindow ? focusedWindow.get_title() : ""`
— unlike every Phase-2 call site, the title is returned raw, with no `|| ""`
guard, so a `null` title crosses the operation boundary (`none`: the D-Bus
`s` out-argument cannot marshal it). -/
def getWinFocusData (st : ShellState) : Option String :=
  match st.focused? with
  | none => some ""
  | some w => w.title?

/-- `getWinPID`. -/
def getWinPID (st : ShellState) : String :=
  match st.focused? with
  | none => ""
  | some w => toString w.pid

/-- `getWinClass`: `return focusedWindow ? focusedWindow.get_wm_class() : ""`
— like `getWinFocusData`, the class is returned raw (no `|| ""`), so a `null`
WM_CLASS crosses the operation boundary (`none`). -/
def getWinClass (st : ShellState) : Option String :=
  match st.focused? with
  | none => some ""
  | some w => w.wmClass?

/-- `getWinRole`. -/
def getWinRole (st : ShellState) : String :=
  match st.focused? with
  | none => ""
  | some w => w.role?.getD ""

/-- `getProcessName`: `/proc/pid/comm`, trimmed; failures degrade to `""`. -/
def getProcessName (st : ShellState) : String :=
  match st.focused? with
  | none => ""
  | some w =>
    match st.procComm w.pid with
    | .ok contents => contents.trim
    | _ => ""

/-- `getProcessPath`: `/proc/pid/exe` contents, falling back to the symlink
target only when the direct read throws. -/
def getProcessPath (st : ShellState) : String :=
  match st.focused? with
  | none => ""
  | some w =>
    match st.procExe w.pid with
    | .ok contents => contents.trim
    | .nofile => ""
    | .thrown => (st.procExeLink w.pid).getD ""

/-- `getProcessCmdline`: `/proc/pid/cmdline` with NUL separators replaced by
spaces, trimmed. -/
def getProcessCmdline (st : ShellState) : String :=
  match st.focused? with
  | none => ""
  | some w =>
    match st.procCmdline w.pid with
    | .ok contents => (contents.replace "\x00" " ").trim
    | _ => ""

/-- `getProcessCwd`: the `/proc/pid/cwd` symlink target. -/
def getProcessCwd (st : ShellState) : String :=
  match st.focused? with
  | none => ""
  | some w => (st.procCwdLink w.pid).getD ""

/-- `getWinGeometry`. -/
def getWinGeometry (st : ShellState) : String :=
  match st.focused? with
  | none => ""
  | some w =>
    stringifyJson (.obj [("x", .num w.frame.x), ("y", .num w.frame.y),
      ("width", .num w.frame.width), ("height", .num w.frame.height)])

/-- `getWinWorkspace`. -/
def getWinWorkspace (st : ShellState) : String :=
  match st.focused? with
  | none => ""
  | some w =>
    match w.workspace? with
    | some ws =>
      stringifyJson (.obj [("index", .num ws.index),
        ("name", .str (match ws.metaName? with
          | some nm => nm
          | none => "Workspace " ++ toString (ws.index + 1)))])
    | none => ""

/-- `getProcessParent`: 4th space-separated field of `/proc/pid/stat`. -/
def getProcessParent (st : ShellState) : String :=
  match st.focused? with
  | none => ""
  | some w =>
    match st.procStat w.pid with
    | .ok contents => (jsSplit contents " ").getD 3 ""
    | _ => ""

/-- `getBrowserUrl` at the operation boundary. -/
def getBrowserUrl (st : ShellState) : String :=
  match st.focused? with
  | none => ""
  | some w => stringifyJson (getBrowserUrlJson (w.wmClass?.getD "") (w.title?.getD ""))

/-- `getBrowserTabInfo` at the operation boundary. -/
def getBrowserTabInfo (st : ShellState) : String :=
  match st.focused? with
  | none => ""
  | some w => stringifyJson (getBrowserTabInfoJson (w.wmClass?.getD "") (w.title?.getD "") st.now)

/-- `getIdeProject` at the operation boundary. -/
def getIdeProject (st : ShellState) : String :=
  match st.focused? with
  | none => ""
  | some w =>
    stringifyJson (getIdeProjectJson (w.wmClass?.getD "") (w.title?.getD "")
      (st.procCwdLink w.pid))

/-- `getIdeActiveFile` at the operation boundary. -/
def getIdeActiveFile (st : ShellState) : String :=
  match st.focused? with
  | none => ""
  | some w => stringifyJson (getIdeActiveFileJson (w.wmClass?.getD "") (w.title?.getD ""))

/-- `getTerminalCommand` at the operation boundary. -/
def getTerminalCommand (st : ShellState) : String :=
  match st.focused? with
  | none => ""
  | some w =>
    stringifyJson (getTerminalCommandJson (w.wmClass?.getD "") (w.title?.getD "")
      (st.procCwdLink w.pid))

/-- `getFileManagerPath` at the operation boundary. -/
def getFileManagerPath (st : ShellState) : String :=
  match st.focused? with
  | none => ""
  | some w => stringifyJson (getFileManagerPathJson (w.wmClass?.getD "") (w.title?.getD ""))

/-- `getDocumentPath` at the operation boundary. -/
def getDocumentPath (st : ShellState) : String :=
  match st.focused? with
  | none => ""
  | some w => stringifyJson (getDocumentPathJson (w.wmClass?.getD "") (w.title?.getD ""))

/-- The object `getAppContext` builds, or `none` when one of its
`JSON.parse(this.getX())` calls would throw.  The sibling calls re-locate the
same focused window within the same synchronous call, so their serialized
output is inlined; `appType` is the value assigned along the same detection
chain (`appTypeOf`). -/
def getAppContextObj? (windowClass windowTitle : String) (pid : Nat)
    (cwdTarget : Option String) (now : Nat) : Option JsVal :=
  let contextM : Option JsVal :=
    if isBrowserClass windowClass then
      jsonParse (stringifyJson (getBrowserUrlJson windowClass windowTitle))
    else if isIdeClass windowClass then
      match jsonParse (stringifyJson (getIdeProjectJson windowClass windowTitle cwdTarget)),
            jsonParse (stringifyJson (getIdeActiveFileJson windowClass windowTitle)) with
      | some project, some activeFile =>
        some (.obj [("project", project), ("activeFile", activeFile)])
      | _, _ => none
    else if isTerminalClass windowClass then
      jsonParse (stringifyJson (getTerminalCommandJson windowClass windowTitle cwdTarget))
    else if isFileManagerClass windowClass then
      jsonParse (stringifyJson (getFileManagerPathJson windowClass windowTitle))
    else if isDocumentClass windowClass then
      jsonParse (stringifyJson (getDocumentPathJson windowClass windowTitle))
    else some (.obj [])
  contextM.map fun context =>
    .obj [("appType", .str (appTypeOf windowClass)),
          ("windowClass", .str windowClass),
          ("windowTitle", .str windowTitle),
          ("pid", .num pid),
          ("context", context),
          ("timestamp", .num now)]

/-- `getAppContext` at the operation boundary; `none` models an uncaught
`JSON.parse` exception aborting the call. -/
def getAppContextE (st : ShellState) : Option String :=
  match st.focused? with
  | none => some ""
  | some w =>
    (getAppContextObj? (w.wmClass?.getD "") (w.title?.getD "") w.pid
      (st.procCwdLink w.pid) st.now).map stringifyJson

/-- The object `getAllWindowData` serializes.  `applicationContext` is the
literal the source writes; `collectionDuration` is `Date.now() - timestamp`
within the same call (`now - now = 0` in this model). -/
def getAllWindowDataJson (st : ShellState) : JsVal :=
  let timestamp := st.now
  match st.focused? with
  | none =>
    .obj [("error", .str "No focused window found"),
          ("timestamp", .num timestamp),
          ("dataAvailable", .bool false),
          ("debug", .str "Using same logic as getWinFocusData")]
  | some w =>
    .obj [("timestamp", .num timestamp),
          ("dataCollectionVersion", .str "1.0"),
          ("extensionInfo", .obj [("name", .str "Active Window Details"),
            ("uuid", .str "active-window-details@imaginationguild.com"),
            ("version", .str "1.0.0")]),
          ("core", .obj [("title", .str (w.title?.getD "")),
            ("windowClass", .str (w.wmClass?.getD "")),
            ("pid", .num w.pid)]),
          ("applicationContext", .obj [("detectedType", .str "unknown"),
            ("specificData", .obj [])]),
          ("performance", .obj [("collectionDuration", .num (st.now - timestamp))])]

/-- `getAllWindowData` at the operation boundary. -/
def getAllWindowData (st : ShellState) : String :=
  stringifyJson (getAllWindowDataJson st)

/-- The 20 exported operations (the out-of-core `getVersion` is transport
metadata and excluded).  Each entry pairs the D-Bus method name with its
boundary result; `none` means the call produces no string — an escaped
exception, or a raw `null` return that faults at the `s`-typed out-argument. -/
def operations (st : ShellState) : List (String × Option String) :=
  [("getWinFocusData", getWinFocusData st),
   ("getWinPID", some (getWinPID st)),
   ("getWinClass", getWinClass st),
   ("getWinRole", some (getWinRole st)),
   ("getProcessName", some (getProcessName st)),
   ("getProcessPath", some (getProcessPath st)),
   ("getProcessCmdline", some (getProcessCmdline st)),
   ("getProcessCwd", some (getProcessCwd st)),
   ("getWinGeometry", some (getWinGeometry st)),
   ("getWinWorkspace", some (getWinWorkspace st)),
   ("getProcessParent", some (getProcessParent st)),
   ("getBrowserUrl", some (getBrowserUrl st)),
   ("getBrowserTabInfo", some (getBrowserTabInfo st)),
   ("getIdeProject", some (getIdeProject st)),
   ("getIdeActiveFile", some (getIdeActiveFile st)),
   ("getTerminalCommand", some (getTerminalCommand st)),
   ("getFileManagerPath", some (getFileManagerPath st)),
   ("getDocumentPath", some (getDocumentPath st)),
   ("getAppContext", getAppContextE st),
   ("getAllWindowData", some (getAllWindowData st))]

/-! ## Spec-side classifier (for the refinement claim about classification) -/

/-- The ordered category rule table of spec §4.3. -/
def categoryRules : List (String × List String) :=
  [("browser", browserClasses), ("ide", ideClasses), ("terminal", terminalClasses),
   ("file_manager", fileManagerClasses), ("document", documentClasses)]

/-- Modelled from the spec's words (§4.3): one keyword matches when it occurs
case-insensitively as a substring of the window class (the keyword lists are
lower-case); browser keywords are additionally matched with the hyphen
stripped. -/
def keywordMatches (windowClass keyword : String) (stripHyphen : Bool) : Bool :=
  jsIncludes (jsToLower windowClass) keyword ||
  (stripHyphen && jsIncludes (jsToLower windowClass) (jsReplaceFirst keyword "-" ""))

/-- Modelled from the spec's words (§4.3): apply the ordered rule list, first
rule whose keyword set matches wins, no match yields `"unknown"`. -/
def orderedClassify (windowClass : String) : String :=
  match categoryRules.find? (fun rule =>
      rule.2.any fun k => keywordMatches windowClass k (rule.1 == "browser")) with
  | some rule => rule.1
  | none => "unknown"

/-! ## Lemmas about the JS string helpers -/

theorem jsIncludes_iff {s sub : String} : jsIncludes s sub = true ↔ sub.data <:+: s.data := by
  simp [jsIncludes]

theorem jsSplitAux_ne_nil (s : Char) (ss : List Char) (fuel : Nat) (l acc : List Char) :
    jsSplitAux s ss fuel l acc ≠ [] := by
  induction fuel generalizing l acc with
  | zero => cases l <;> simp [jsSplitAux]
  | succ n ih =>
    cases l with
    | nil => simp [jsSplitAux]
    | cons c rest =>
      rw [jsSplitAux]
      split
      · exact List.cons_ne_nil _ _
      · exact ih rest (c :: acc)

theorem intercalate_cons₂ (sep a : List Char) (R : List (List Char)) (hR : R ≠ []) :
    List.intercalate sep (a :: R) = a ++ sep ++ List.intercalate sep R := by
  cases R with
  | nil => exact absurd rfl hR
  | cons b bs =>
    simp [List.intercalate, List.intersperse_cons_cons, List.append_assoc]

/-- Joining the JS split with the separator gives back the input. -/
theorem jsSplitAux_intercalate (s : Char) (ss : List Char) :
    ∀ (fuel : Nat) (l acc : List Char), l.length ≤ fuel →
      List.intercalate (s :: ss) (jsSplitAux s ss fuel l acc) = acc.reverse ++ l := by
  intro fuel
  induction fuel with
  | zero =>
    intro l acc h
    have hl : l = [] := by cases l with
      | nil => rfl
      | cons c r => simp at h
    subst hl
    simp [jsSplitAux, List.intercalate]
  | succ n ih =>
    intro l acc h
    cases l with
    | nil => simp [jsSplitAux, List.intercalate]
    | cons c rest =>
      rw [jsSplitAux]
      split
      case isTrue hpre =>
        obtain ⟨u, hu⟩ := hpre
        have hdropu : rest.drop ss.length = u := by
          have h2 := congrArg (List.drop (ss.length + 1)) hu
          rw [List.drop_left' (by simp)] at h2
          simpa using h2.symm
        rw [intercalate_cons₂ _ _ _ (jsSplitAux_ne_nil s ss _ _ _)]
        rw [ih (rest.drop ss.length) []
          (by simp only [List.length_drop]; simp only [List.length_cons] at h; omega)]
        rw [hdropu]
        rw [List.append_assoc, ← hu]
        simp
      case isFalse hpre =>
        rw [ih rest (c :: acc) (by simp only [List.length_cons] at h ⊢; omega)]
        simp

/-- A contiguous run avoiding the characters of the (non-empty) middle block
lies entirely in the left or in the right block. -/
theorem infix_split {sub A B C : List Char} (hne : sub ≠ []) (hB : B ≠ [])
    (hd : ∀ c ∈ sub, c ∉ B) (h : sub <:+: A ++ B ++ C) :
    sub <:+: A ∨ sub <:+: C := by
  obtain ⟨s, t, hst⟩ := h
  by_cases h1 : s.length + sub.length ≤ A.length
  · left
    have hA : A = List.take A.length (s ++ sub ++ t) := by
      rw [hst, List.append_assoc, List.take_left']
      rfl
    rw [List.append_assoc, List.take_append_eq_append_take,
      List.take_of_length_le (by omega)] at hA
    rw [List.take_append_eq_append_take, List.take_of_length_le (by omega)] at hA
    exact ⟨s, _, by rw [hA, List.append_assoc]⟩
  · by_cases h2 : A.length + B.length ≤ s.length
    · right
      have hC : C = List.drop (A.length + B.length) (s ++ sub ++ t) := by
        rw [hst, List.drop_left' (by simp)]
      rw [List.append_assoc, List.drop_append_eq_append_drop] at hC
      rw [Nat.sub_eq_zero_of_le (by omega), List.drop_zero] at hC
      exact ⟨s.drop (A.length + B.length), t, by rw [hC, List.append_assoc]⟩
    · exfalso
      push_neg at h1 h2
      have hsubpos : 0 < sub.length := List.length_pos.mpr hne
      have hBpos : 0 < B.length := List.length_pos.mpr hB
      have his : s.length ≤ max s.length A.length := le_max_left _ _
      have hiA : A.length ≤ max s.length A.length := le_max_right _ _
      have hisub : max s.length A.length < s.length + sub.length := max_lt (by omega) h1
      have hiAB : max s.length A.length < A.length + B.length := max_lt h2 (by omega)
      have hlenL : max s.length A.length < ((s ++ sub) ++ t).length := by
        simp only [List.length_append]; omega
      have hlenR : max s.length A.length < ((A ++ B) ++ C).length := by
        simp only [List.length_append]; omega
      have hsA : max s.length A.length < (s ++ sub).length := by
        simp only [List.length_append]; omega
      have hsB : max s.length A.length < (A ++ B).length := by
        simp only [List.length_append]; omega
      have eL : ((s ++ sub) ++ t)[max s.length A.length] =
          sub[max s.length A.length - s.length] := by
        rw [List.getElem_append_left hsA, List.getElem_append_right his]
      have eR : ((A ++ B) ++ C)[max s.length A.length] =
          B[max s.length A.length - A.length] := by
        rw [List.getElem_append_left hsB, List.getElem_append_right hiA]
      have hmemS : sub[max s.length A.length - s.length] ∈ sub := List.getElem_mem _
      have hmemB : B[max s.length A.length - A.length] ∈ B := List.getElem_mem _
      have : ((s ++ sub) ++ t)[max s.length A.length] =
          ((A ++ B) ++ C)[max s.length A.length] := by
        congr 1
      rw [eL, eR] at this
      exact hd _ hmemS (this ▸ hmemB)

/-- A substring whose characters avoid the separator occurs inside one part of
the split. -/
theorem infix_flat_part {sep sub : List Char} (hsep : sep ≠ []) (hne : sub ≠ [])
    (hd : ∀ c ∈ sub, c ∉ sep) :
    ∀ parts : List (List Char), sub <:+: List.intercalate sep parts →
      ∃ p ∈ parts, sub <:+: p := by
  intro parts
  induction parts with
  | nil =>
    intro h
    simp [List.intercalate] at h
    exact absurd h hne
  | cons p ps ih =>
    intro h
    cases ps with
    | nil =>
      refine ⟨p, List.mem_cons_self _ _, ?_⟩
      simpa [List.intercalate] using h
    | cons q qs =>
      rw [intercalate_cons₂ sep p (q :: qs) (by simp)] at h
      rcases infix_split hne hsep hd h with h1 | h2
      · exact ⟨p, List.mem_cons_self _ _, h1⟩
      · obtain ⟨x, hx, hxi⟩ := ih h2
        exact ⟨x, List.mem_cons_of_mem _ hx, hxi⟩

/-- If `sub` (none of whose characters occur in `sep`) occurs in `t`, it
occurs in one of the parts of `t.split(sep)`. -/
theorem includes_exists_part {t sub sep : String} (hsep : sep.data ≠ [])
    (hne : sub.data ≠ []) (hd : ∀ c ∈ sub.data, c ∉ sep.data)
    (h : jsIncludes t sub = true) :
    ∃ p ∈ jsSplit t sep, jsIncludes p sub = true := by
  rw [jsIncludes_iff] at h
  rcases hs : sep.data with _ | ⟨c0, cs⟩
  · exact absurd hs hsep
  · have hint : List.intercalate (c0 :: cs)
        (jsSplitAux c0 cs t.data.length t.data []) = t.data := by
      simpa using jsSplitAux_intercalate c0 cs t.data.length t.data [] le_rfl
    rw [hs] at hd
    obtain ⟨p, hp, hpi⟩ :=
      infix_flat_part (by simp) hne hd (jsSplitAux c0 cs t.data.length t.data [])
        (by rw [hint]; exact h)
    refine ⟨⟨p⟩, ?_, ?_⟩
    · simp only [jsSplit, hs, jsSplitChars]
      exact List.mem_map.mpr ⟨p, hp, rfl⟩
    · rw [jsIncludes_iff]
      exact hpi

/-- A string containing a non-empty substring is non-empty. -/
theorem ne_empty_of_includes {p sub : String} (hne : sub.data ≠ [])
    (h : jsIncludes p sub = true) : p ≠ "" := by
  rw [jsIncludes_iff] at h
  intro hp
  rw [hp] at h
  exact hne (List.infix_nil.mp h)

/-! ## `JSON.parse (JSON.stringify v)` round trip, for the flat string/boolean
objects that the extractors produce and `getAppContext` parses back -/

/-- Values that are JSON strings or booleans (the only member values of the
objects the Phase-2 extractors serialize). -/
def scalarVal : JsVal → Bool
  | .str _ => true
  | .bool _ => true
  | _ => false

theorem hexVal_hexDigit {n : Nat} (h : n < 16) : hexVal (hexDigit n) = some n := by
  have hall : ∀ i : Fin 16, hexVal (hexDigit i.val) = some i.val := by decide
  exact hall ⟨n, h⟩

/-! Step lemmas unfolding `parseStringBody` at each input shape. -/

theorem psb_quote (r : List Char) : parseStringBody ('\x22' :: r) = some ([], r) := by
  rw [parseStringBody.eq_def]; exact rfl

theorem psb_escQuote (r : List Char) :
    parseStringBody ('\x5c' :: '\x22' :: r) =
      (parseStringBody r).map fun p => ('\x22' :: p.1, p.2) := by
  rw [parseStringBody.eq_def]; exact rfl

theorem psb_escBack (r : List Char) :
    parseStringBody ('\x5c' :: '\x5c' :: r) =
      (parseStringBody r).map fun p => ('\x5c' :: p.1, p.2) := by
  rw [parseStringBody.eq_def]; exact rfl

theorem psb_escB (r : List Char) :
    parseStringBody ('\x5c' :: 'b' :: r) =
      (parseStringBody r).map fun p => ('\x08' :: p.1, p.2) := by
  rw [parseStringBody.eq_def]; exact rfl

theorem psb_escT (r : List Char) :
    parseStringBody ('\x5c' :: 't' :: r) =
      (parseStringBody r).map fun p => ('\x09' :: p.1, p.2) := by
  rw [parseStringBody.eq_def]; exact rfl

theorem psb_escN (r : List Char) :
    parseStringBody ('\x5c' :: 'n' :: r) =
      (parseStringBody r).map fun p => ('\x0a' :: p.1, p.2) := by
  rw [parseStringBody.eq_def]; exact rfl

theorem psb_escF (r : List Char) :
    parseStringBody ('\x5c' :: 'f' :: r) =
      (parseStringBody r).map fun p => ('\x0c' :: p.1, p.2) := by
  rw [parseStringBody.eq_def]; exact rfl

theorem psb_escR (r : List Char) :
    parseStringBody ('\x5c' :: 'r' :: r) =
      (parseStringBody r).map fun p => ('\x0d' :: p.1, p.2) := by
  rw [parseStringBody.eq_def]; exact rfl

theorem psb_escU {h1 h2 h3 h4 : Char} {v1 v2 v3 v4 : Nat}
    (e1 : hexVal h1 = some v1) (e2 : hexVal h2 = some v2)
    (e3 : hexVal h3 = some v3) (e4 : hexVal h4 = some v4) (r : List Char) :
    parseStringBody ('\x5c' :: 'u' :: h1 :: h2 :: h3 :: h4 :: r) =
      (if ((v1 * 16 + v2) * 16 + v3) * 16 + v4 < 0xd800 then
        (parseStringBody r).map fun p =>
          (Char.ofNat (((v1 * 16 + v2) * 16 + v3) * 16 + v4) :: p.1, p.2)
      else none) := by
  rw [parseStringBody.eq_def]
  simp only [e1, e2, e3, e4, reduceIte, Char.reduceEq]

theorem psb_other {c : Char} (hq : ¬c = '\x22') (hb : ¬c = '\x5c')
    (hlt : ¬c.toNat < 32) (r : List Char) :
    parseStringBody (c :: r) = (parseStringBody r).map fun p => (c :: p.1, p.2) := by
  rw [parseStringBody.eq_def]
  simp only [if_neg hq, if_neg hb, if_neg hlt]

theorem parseStringBody_roundtrip : ∀ (s r : List Char),
    parseStringBody (escapeChars s ++ ('\x22' :: r)) = some (s, r) := by
  intro s
  induction s with
  | nil => intro r; rw [escapeChars, List.nil_append]; exact psb_quote r
  | cons c cs ih =>
    intro r
    rw [escapeChars, List.append_assoc]
    by_cases hq : c = '\x22'
    · subst hq
      rw [show escChar '\x22' = ['\x5c', '\x22'] from rfl]
      simp only [List.cons_append, List.nil_append]
      rw [psb_escQuote, ih]
      rfl
    · by_cases hb : c = '\x5c'
      · subst hb
        rw [show escChar '\x5c' = ['\x5c', '\x5c'] from rfl]
        simp only [List.cons_append, List.nil_append]
        rw [psb_escBack, ih]
        rfl
      · by_cases hlt : c.toNat < 32
        · by_cases h8 : c = '\x08'
          · subst h8
            rw [show escChar '\x08' = ['\x5c', 'b'] from rfl]
            simp only [List.cons_append, List.nil_append]
            rw [psb_escB, ih]
            rfl
          · by_cases h9 : c = '\x09'
            · subst h9
              rw [show escChar '\x09' = ['\x5c', 't'] from rfl]
              simp only [List.cons_append, List.nil_append]
              rw [psb_escT, ih]
              rfl
            · by_cases h10 : c = '\x0a'
              · subst h10
                rw [show escChar '\x0a' = ['\x5c', 'n'] from rfl]
                simp only [List.cons_append, List.nil_append]
                rw [psb_escN, ih]
                rfl
              · by_cases h12 : c = '\x0c'
                · subst h12
                  rw [show escChar '\x0c' = ['\x5c', 'f'] from rfl]
                  simp only [List.cons_append, List.nil_append]
                  rw [psb_escF, ih]
                  rfl
                · by_cases h13 : c = '\x0d'
                  · subst h13
                    rw [show escChar '\x0d' = ['\x5c', 'r'] from rfl]
                    simp only [List.cons_append, List.nil_append]
                    rw [psb_escR, ih]
                    rfl
                  · -- the `\u00XX` escape
                    have hesc : escChar c =
                        ['\x5c', 'u', '0', '0', hexDigit (c.toNat / 16),
                          hexDigit (c.toNat % 16)] := by
                      rw [escChar, if_neg hq, if_neg hb, if_pos hlt, if_neg h8, if_neg h9,
                        if_neg h10, if_neg h12, if_neg h13]
                    rw [hesc]
                    have hd1 : hexVal (hexDigit (c.toNat / 16)) = some (c.toNat / 16) :=
                      hexVal_hexDigit (by omega)
                    have hd2 : hexVal (hexDigit (c.toNat % 16)) = some (c.toNat % 16) :=
                      hexVal_hexDigit (by omega)
                    have hv0 : hexVal '0' = some 0 := by decide
                    simp only [List.cons_append, List.nil_append]
                    rw [psb_escU hv0 hv0 hd1 hd2]
                    have harith : ((0 * 16 + 0) * 16 + c.toNat / 16) * 16 + c.toNat % 16 =
                        c.toNat := by omega
                    rw [harith, if_pos (by omega : c.toNat < 0xd800), Char.ofNat_toNat, ih]
                    rfl
        · have hesc : escChar c = [c] := by
            rw [escChar, if_neg hq, if_neg hb, if_neg hlt]
          rw [hesc, List.singleton_append, psb_other hq hb hlt, ih]
          rfl

/-! Step lemmas unfolding `parseJsonV` / `parseJsonMembers`. -/

theorem pjv_quote (g : Nat) (r : List Char) :
    parseJsonV (g + 1) ('\x22' :: r) =
      (parseStringBody r).map fun p => (JsVal.str ⟨p.1⟩, p.2) := by
  rw [parseJsonV.eq_def]; exact rfl

theorem pjv_true (g : Nat) (r : List Char) :
    parseJsonV (g + 1) ('t' :: 'r' :: 'u' :: 'e' :: r) = some (JsVal.bool true, r) := by
  rw [parseJsonV.eq_def]; exact rfl

theorem pjv_false (g : Nat) (r : List Char) :
    parseJsonV (g + 1) ('f' :: 'a' :: 'l' :: 's' :: 'e' :: r) = some (JsVal.bool false, r) := by
  rw [parseJsonV.eq_def]; exact rfl

theorem pjv_objQuote (g : Nat) (r : List Char) :
    parseJsonV (g + 1) ('\x7b' :: '\x22' :: r) =
      (parseJsonMembers g ('\x22' :: r)).map fun p => (JsVal.obj p.1, p.2) := by
  rw [parseJsonV.eq_def]; exact rfl

theorem pjm_key_close {g : Nat} {Z tail : List Char} {v : JsVal} (k : List Char)
    (hZ : parseJsonV g Z = some (v, '\x7d' :: tail)) :
    parseJsonMembers (g + 1) ('\x22' :: (escapeChars k ++ ('\x22' :: (':' :: Z)))) =
      some ([((⟨k⟩ : String), v)], tail) := by
  rw [parseJsonMembers.eq_def]
  simp only [parseStringBody_roundtrip, hZ]

theorem pjm_key_comma {g : Nat} {Z rest5 : List Char} {v : JsVal} (k : List Char)
    (hZ : parseJsonV g Z = some (v, ',' :: rest5)) :
    parseJsonMembers (g + 1) ('\x22' :: (escapeChars k ++ ('\x22' :: (':' :: Z)))) =
      (parseJsonMembers g rest5).map fun p => (((⟨k⟩ : String), v) :: p.1, p.2) := by
  rw [parseJsonMembers.eq_def]
  simp only [parseStringBody_roundtrip, hZ]

theorem parseJsonV_scalar (v : JsVal) (hv : scalarVal v = true) (g : Nat) (r : List Char) :
    parseJsonV (g + 1) (stringifyCore v ++ r) = some (v, r) := by
  cases v with
  | num n => simp [scalarVal] at hv
  | obj ms => simp [scalarVal] at hv
  | bool b =>
    cases b
    · rw [show stringifyCore (.bool false) = ['f', 'a', 'l', 's', 'e'] from by
        simp [stringifyCore]]
      simp only [List.cons_append, List.nil_append]
      exact pjv_false g r
    · rw [show stringifyCore (.bool true) = ['t', 'r', 'u', 'e'] from by
        simp [stringifyCore]]
      simp only [List.cons_append, List.nil_append]
      exact pjv_true g r
  | str s =>
    have hshape : stringifyCore (.str s) ++ r =
        '\x22' :: (escapeChars s.data ++ ('\x22' :: r)) := by
      simp [stringifyCore, stringifyString, List.append_assoc]
    rw [hshape, pjv_quote, parseStringBody_roundtrip]
    rfl

theorem parseJsonMembers_roundtrip :
    ∀ (ms : List (String × JsVal)), (∀ m ∈ ms, scalarVal m.2 = true) → ms ≠ [] →
      ∀ (f : Nat) (tail : List Char),
        parseJsonMembers (f + ms.length + 1) (stringifyMembers ms ++ ('\x7d' :: tail)) =
          some (ms, tail) := by
  intro ms
  induction ms with
  | nil => intro _ h; exact absurd rfl h
  | cons m rest ih =>
    obtain ⟨k, v⟩ := m
    intro hflat _ f tail
    have hv : scalarVal v = true := hflat (k, v) (List.mem_cons_self _ _)
    cases rest with
    | nil =>
      have hshape : stringifyMembers [(k, v)] ++ ('\x7d' :: tail) =
          '\x22' :: (escapeChars k.data ++
            ('\x22' :: (':' :: (stringifyCore v ++ ('\x7d' :: tail))))) := by
        simp [stringifyMembers, stringifyString, List.append_assoc]
      simp only [List.length_cons, List.length_nil, Nat.zero_add]
      rw [hshape]
      exact pjm_key_close k.data (parseJsonV_scalar v hv f ('\x7d' :: tail))
    | cons m2 rest2 =>
      have hshape : stringifyMembers ((k, v) :: m2 :: rest2) ++ ('\x7d' :: tail) =
          '\x22' :: (escapeChars k.data ++
            ('\x22' :: (':' :: (stringifyCore v ++
              (',' :: (stringifyMembers (m2 :: rest2) ++ ('\x7d' :: tail))))))) := by
        simp [stringifyMembers, stringifyString, List.append_assoc]
      simp only [List.length_cons]
      have hfe : f + (rest2.length + 1 + 1) + 1 = ((f + rest2.length + 2)) + 1 := by
        omega
      rw [hshape, hfe]
      rw [pjm_key_comma k.data (parseJsonV_scalar v hv (f + rest2.length + 1)
        (',' :: (stringifyMembers (m2 :: rest2) ++ ('\x7d' :: tail))))]
      have hih := ih (fun m hm => hflat m (List.mem_cons_of_mem _ hm)) (by simp) f tail
      simp only [List.length_cons] at hih
      have hfe2 : f + rest2.length + 2 = f + (rest2.length + 1) + 1 := by omega
      rw [hfe2, hih]
      rfl

/-- Each member of the object contributes at least one character. -/
theorem stringifyMembers_length_ge :
    ∀ ms : List (String × JsVal), ms.length ≤ (stringifyMembers ms).length := by
  intro ms
  induction ms with
  | nil => simp [stringifyMembers]
  | cons m rest ih =>
    obtain ⟨k, v⟩ := m
    cases rest with
    | nil => simp [stringifyMembers, stringifyString]
    | cons m2 rest2 =>
      simp only [stringifyMembers, stringifyString, List.length_cons, List.length_append,
        List.cons_append] at ih ⊢
      omega

/-- Objects whose members start with a key open with `"` after the brace. -/
theorem stringifyMembers_cons_head (m : String × JsVal) (rest : List (String × JsVal)) :
    ∃ X, stringifyMembers (m :: rest) = '\x22' :: X := by
  obtain ⟨k, v⟩ := m
  cases rest with
  | nil =>
    refine ⟨(escapeChars k.data ++ ['\x22']) ++ (':' :: stringifyCore v), ?_⟩
    simp [stringifyMembers, stringifyString, List.cons_append]
  | cons m2 rest2 =>
    refine ⟨(escapeChars k.data ++ ['\x22']) ++
      (':' :: (stringifyCore v ++ (',' :: stringifyMembers (m2 :: rest2)))), ?_⟩
    simp [stringifyMembers, stringifyString, List.cons_append]

/-- `JSON.parse` inverts `JSON.stringify` on the non-empty flat
string/boolean objects the extractors emit. -/
theorem jsonParse_stringify_flat (ms : List (String × JsVal))
    (hflat : ∀ m ∈ ms, scalarVal m.2 = true) (hne : ms ≠ []) :
    jsonParse (stringifyJson (.obj ms)) = some (.obj ms) := by
  obtain ⟨m, rest, hms⟩ : ∃ m rest, ms = m :: rest := by
    cases ms with
    | nil => exact absurd rfl hne
    | cons m rest => exact ⟨m, rest, rfl⟩
  subst hms
  obtain ⟨X, hX⟩ := stringifyMembers_cons_head m rest
  have hge := stringifyMembers_length_ge (m :: rest)
  have hdata : (stringifyJson (.obj (m :: rest))).data =
      '\x7b' :: (stringifyMembers (m :: rest) ++ ['\x7d']) := by
    simp [stringifyJson, stringifyCore]
  rw [jsonParse, hdata]
  have hL : ('\x7b' :: (stringifyMembers (m :: rest) ++ ['\x7d'])).length + 2 =
      ((((stringifyMembers (m :: rest)).length + 2 - (m :: rest).length) +
        (m :: rest).length) + 1) + 1 := by
    simp only [List.length_cons, List.length_append, List.length_nil]
    simp only [List.length_cons] at hge
    omega
  rw [hL]
  have hhead : stringifyMembers (m :: rest) ++ ['\x7d'] = '\x22' :: (X ++ ['\x7d']) := by
    rw [hX]
    simp [List.cons_append]
  rw [hhead, pjv_objQuote]
  have hrt := parseJsonMembers_roundtrip (m :: rest) hflat hne
    ((stringifyMembers (m :: rest)).length + 2 - (m :: rest).length) []
  have harg : stringifyMembers (m :: rest) ++ ('\x7d' :: ([] : List Char)) =
      '\x22' :: (X ++ ['\x7d']) := by
    rw [hX]
    simp [List.cons_append]
  rw [harg] at hrt
  rw [hrt]
  rfl

/-! ## The extractor objects are flat string/boolean objects -/

theorem getBrowserUrlJson_flat (c t : String) :
    ∃ ms, getBrowserUrlJson c t = .obj ms ∧ ms ≠ [] ∧ ∀ m ∈ ms, scalarVal m.2 = true := by
  cases hb : isBrowserClass c <;>
    simp only [getBrowserUrlJson, hb, Bool.not_false, Bool.not_true, if_true, if_false] <;>
    exact ⟨_, rfl, by simp, fun m hm => by fin_cases hm <;> rfl⟩

theorem getIdeProjectJson_flat (c t : String) (cw : Option String) :
    ∃ ms, getIdeProjectJson c t cw = .obj ms ∧ ms ≠ [] ∧ ∀ m ∈ ms, scalarVal m.2 = true := by
  cases hb : isIdeClass c <;>
    simp only [getIdeProjectJson, hb, Bool.not_false, Bool.not_true, if_true, if_false] <;>
    exact ⟨_, rfl, by simp, fun m hm => by fin_cases hm <;> rfl⟩

theorem getIdeActiveFileJson_flat (c t : String) :
    ∃ ms, getIdeActiveFileJson c t = .obj ms ∧ ms ≠ [] ∧ ∀ m ∈ ms, scalarVal m.2 = true := by
  exact ⟨_, rfl, by simp, fun m hm => by fin_cases hm <;> rfl⟩

theorem getTerminalCommandJson_flat (c t : String) (cw : Option String) :
    ∃ ms, getTerminalCommandJson c t cw = .obj ms ∧ ms ≠ [] ∧ ∀ m ∈ ms, scalarVal m.2 = true := by
  cases hb : isTerminalClass c <;>
    simp only [getTerminalCommandJson, hb, Bool.not_false, Bool.not_true, if_true, if_false] <;>
    exact ⟨_, rfl, by simp, fun m hm => by fin_cases hm <;> rfl⟩

theorem getFileManagerPathJson_flat (c t : String) :
    ∃ ms, getFileManagerPathJson c t = .obj ms ∧ ms ≠ [] ∧ ∀ m ∈ ms, scalarVal m.2 = true := by
  cases hb : isFileManagerClass c <;>
    simp only [getFileManagerPathJson, hb, Bool.not_false, Bool.not_true, if_true, if_false] <;>
    exact ⟨_, rfl, by simp, fun m hm => by fin_cases hm <;> rfl⟩

theorem getDocumentPathJson_flat (c t : String) :
    ∃ ms, getDocumentPathJson c t = .obj ms ∧ ms ≠ [] ∧ ∀ m ∈ ms, scalarVal m.2 = true := by
  cases hb : isDocumentClass c <;>
    simp only [getDocumentPathJson, hb, Bool.not_false, Bool.not_true, if_true, if_false] <;>
    exact ⟨_, rfl, by simp, fun m hm => by fin_cases hm <;> rfl⟩

/-- `JSON.parse ∘ JSON.stringify` is the identity on the extractor objects. -/
theorem jsonParse_builder {v : JsVal}
    (h : ∃ ms, v = .obj ms ∧ ms ≠ [] ∧ ∀ m ∈ ms, scalarVal m.2 = true) :
    jsonParse (stringifyJson v) = some v := by
  obtain ⟨ms, rfl, hne, hflat⟩ := h
  exact jsonParse_stringify_flat ms hflat hne

/-- `getAppContext` always produces its response object: every
`JSON.parse` it performs succeeds. -/
theorem getAppContextObj?_eq (c t : String) (pid : Nat) (cw : Option String) (now : Nat) :
    ∃ context, getAppContextObj? c t pid cw now =
      some (.obj [("appType", .str (appTypeOf c)), ("windowClass", .str c),
        ("windowTitle", .str t), ("pid", .num pid), ("context", context),
        ("timestamp", .num now)]) := by
  rw [getAppContextObj?]
  by_cases hB : isBrowserClass c = true
  · rw [if_pos hB, jsonParse_builder (getBrowserUrlJson_flat c t)]
    exact ⟨_, rfl⟩
  · rw [if_neg hB]
    by_cases hI : isIdeClass c = true
    · rw [if_pos hI, jsonParse_builder (getIdeProjectJson_flat c t cw),
        jsonParse_builder (getIdeActiveFileJson_flat c t)]
      exact ⟨_, rfl⟩
    · rw [if_neg hI]
      by_cases hT : isTerminalClass c = true
      · rw [if_pos hT, jsonParse_builder (getTerminalCommandJson_flat c t cw)]
        exact ⟨_, rfl⟩
      · rw [if_neg hT]
        by_cases hF : isFileManagerClass c = true
        · rw [if_pos hF, jsonParse_builder (getFileManagerPathJson_flat c t)]
          exact ⟨_, rfl⟩
        · rw [if_neg hF]
          by_cases hD : isDocumentClass c = true
          · rw [if_pos hD, jsonParse_builder (getDocumentPathJson_flat c t)]
            exact ⟨_, rfl⟩
          · rw [if_neg hD]
            exact ⟨_, rfl⟩

theorem getAppContextE_isSome (st : ShellState) : (getAppContextE st).isSome = true := by
  rw [getAppContextE]
  cases hf : st.focused? with
  | none => rfl
  | some w =>
    obtain ⟨ctx, h⟩ := getAppContextObj?_eq (w.wmClass?.getD "") (w.title?.getD "") w.pid
      (st.procCwdLink w.pid) st.now
    simp only [h]
    rfl

/-- When the registry is all-string: always with no focused window, and with
a focused window exactly when its raw title and class are both non-null —
every entry other than `getWinFocusData` and `getWinClass` is
unconditionally `some`. -/
theorem operations_isSome_char (st : ShellState) :
    ((operations st).all fun p => p.2.isSome) =
      (match st.focused? with
       | none => true
       | some w => w.title?.isSome && w.wmClass?.isSome) := by
  cases hf : st.focused? with
  | none =>
    simp only [operations, List.all_cons, List.all_nil, Option.isSome_some,
      Bool.and_true, Bool.true_and, getAppContextE_isSome st, getWinFocusData,
      getWinClass, hf]
  | some w =>
    simp only [operations, List.all_cons, List.all_nil, Option.isSome_some,
      Bool.and_true, Bool.true_and, getAppContextE_isSome st, getWinFocusData,
      getWinClass, hf]

/-- The `appType` field of the unified-context response. -/
theorem getAppContext_appType (c t : String) (pid : Nat) (cw : Option String) (now : Nat) :
    (getAppContextObj? c t pid cw now).bind (fun j => j.field? "appType") =
      some (.str (appTypeOf c)) := by
  obtain ⟨ctx, h⟩ := getAppContextObj?_eq c t pid cw now
  rw [h]
  rfl

/-! ## The detection chain agrees with the ordered rule table -/

theorem kwAny_true (ks : List String) (c : String) :
    (ks.any fun k => keywordMatches c k true) =
      ks.any fun k => jsIncludes (jsToLower c) k ||
        jsIncludes (jsToLower c) (jsReplaceFirst k "-" "") := by
  induction ks with
  | nil => rfl
  | cons k ks ih => simp only [List.any_cons, ih, keywordMatches, Bool.true_and]

theorem kwAny_false (ks : List String) (c : String) :
    (ks.any fun k => keywordMatches c k false) = ks.any fun k => jsIncludes (jsToLower c) k := by
  induction ks with
  | nil => rfl
  | cons k ks ih =>
    simp only [List.any_cons, ih, keywordMatches, Bool.false_and, Bool.or_false]

theorem kwAny_browser (c : String) :
    (browserClasses.any fun k => keywordMatches c k true) = isBrowserClass c := by
  rw [kwAny_true]
  rfl

theorem kwAny_ide (c : String) :
    (ideClasses.any fun k => keywordMatches c k false) = isIdeClass c := by
  rw [kwAny_false]
  rfl

theorem kwAny_terminal (c : String) :
    (terminalClasses.any fun k => keywordMatches c k false) = isTerminalClass c := by
  rw [kwAny_false]
  rfl

theorem kwAny_fm (c : String) :
    (fileManagerClasses.any fun k => keywordMatches c k false) = isFileManagerClass c := by
  rw [kwAny_false]
  rfl

theorem kwAny_document (c : String) :
    (documentClasses.any fun k => keywordMatches c k false) = isDocumentClass c := by
  rw [kwAny_false]
  rfl

theorem appTypeOf_eq_orderedClassify (c : String) : appTypeOf c = orderedClassify c := by
  have e1 : (("browser" : String) == "browser") = true := by decide
  have e2 : (("ide" : String) == "browser") = false := by decide
  have e3 : (("terminal" : String) == "browser") = false := by decide
  have e4 : (("file_manager" : String) == "browser") = false := by decide
  have e5 : (("document" : String) == "browser") = false := by decide
  rw [appTypeOf, orderedClassify, categoryRules]
  simp only [List.find?, e1, e2, e3, e4, e5, kwAny_browser, kwAny_ide, kwAny_terminal,
    kwAny_fm, kwAny_document]
  cases isBrowserClass c <;> cases isIdeClass c <;> cases isTerminalClass c <;>
    cases isFileManagerClass c <;> cases isDocumentClass c <;> rfl

/-! ## Strategy 1 of the browser URL extraction always finds its segment -/

theorem strat1_find (t : String)
    (hw : (jsIncludes t "http" || jsIncludes t "www") = true) :
    ∃ p, ((jsSplit t " - ").find? fun part =>
        jsIncludes part "http" || jsIncludes part "www") = some p ∧
      (jsIncludes p "http" || jsIncludes p "www") = true ∧ p ≠ "" := by
  have hex : ∃ x ∈ jsSplit t " - ",
      (jsIncludes x "http" || jsIncludes x "www") = true := by
    rcases Bool.or_eq_true_iff.mp hw with hh | hh
    · obtain ⟨p, hp, hpi⟩ := @includes_exists_part t "http" " - "
        (by decide) (by decide) (by decide) hh
      exact ⟨p, hp, by rw [hpi]; rfl⟩
    · obtain ⟨p, hp, hpi⟩ := @includes_exists_part t "www" " - "
        (by decide) (by decide) (by decide) hh
      exact ⟨p, hp, by rw [hpi]; simp⟩
  have hsome := List.find?_isSome.mpr hex
  obtain ⟨p0, hfind⟩ := Option.isSome_iff_exists.mp hsome
  have hpred := List.find?_some hfind
  refine ⟨p0, hfind, hpred, ?_⟩
  rcases Bool.or_eq_true_iff.mp hpred with hh | hh
  · exact ne_empty_of_includes (by decide) hh
  · exact ne_empty_of_includes (by decide) hh

/-! ## Concrete states used by witnesses and counterexamples -/

/-- A state with no focused window. -/
def stNone : ShellState :=
  { focused? := none
    procComm := fun _ => .nofile
    procExe := fun _ => .nofile
    procExeLink := fun _ => none
    procCmdline := fun _ => .nofile
    procCwdLink := fun _ => none
    procStat := fun _ => .nofile
    now := 1726000000000 }

/-- A focused Brave browser window showing a GitHub page. -/
def wBrave : MetaWindow :=
  { title? := some "GitHub - https://github.com - Brave"
    wmClass? := some "Brave-browser"
    role? := some "browser-window"
    pid := 4242
    frame := { x := 0, y := 0, width := 1280, height := 800 }
    workspace? := some { index := 0, metaName? := none } }

/-- A state focused on `wBrave`. -/
def stBrave : ShellState :=
  { focused? := some wBrave
    procComm := fun _ => .ok "brave"
    procExe := fun _ => .nofile
    procExeLink := fun _ => none
    procCmdline := fun _ => .nofile
    procCwdLink := fun _ => some "/home/user"
    procStat := fun _ => .nofile
    now := 1726000000000 }

/-- A focused window whose `get_title()` and `get_wm_class()` both return
`null` (a surface with no title and no WM_CLASS set). -/
def wNull : MetaWindow :=
  { title? := none
    wmClass? := none
    role? := none
    pid := 7
    frame := { x := 0, y := 0, width := 100, height := 100 }
    workspace? := none }

/-- A state focused on `wNull`. -/
def stNull : ShellState :=
  { focused? := some wNull
    procComm := fun _ => .nofile
    procExe := fun _ => .nofile
    procExeLink := fun _ => none
    procCmdline := fun _ => .nofile
    procCwdLink := fun _ => none
    procStat := fun _ => .nofile
    now := 1726000000000 }

/-! ## Positive-branch shapes of the category-checked extractors -/

theorem getBrowserUrlJson_pos {c : String} (hb : isBrowserClass c = true) (t : String) :
    getBrowserUrlJson c t =
      .obj [("url", .str (browserUrlFromTitle t)), ("title", .str t),
        ("browserType", .str c), ("isBrowser", .bool true),
        ("extractionMethod",
          .str (if browserUrlFromTitle t = "" then "title_parsing_failed"
            else "window_title"))] := by
  simp [getBrowserUrlJson, hb]

theorem getDocumentPathJson_pos {c : String} (hd : isDocumentClass c = true) (t : String) :
    getDocumentPathJson c t =
      .obj [("documentPath", .str (documentPathOf t)), ("windowTitle", .str t),
        ("documentType", .str c), ("isDocument", .bool true),
        ("extractionMethod",
          .str (if documentPathOf t = "" then "title_parsing_failed"
            else "window_title"))] := by
  simp [getDocumentPathJson, hd]

/-! ## Claim theorems -/

/-- C1: the full-snapshot operation is claimed to fill `applicationContext`
with the classifier's category and the matching extractor's output; the code
instead hard-codes `{detectedType: "unknown", specificData: {}}`.  At a
focused Brave-browser window the classifier says `browser` and the browser
extractor finds the URL, yet the snapshot's `applicationContext` is the fixed
constant. -/
theorem c1_snapshot_context_constant :
    appTypeOf "Brave-browser" = "browser" ∧
    (getBrowserUrlJson "Brave-browser" "GitHub - https://github.com - Brave").field? "url" =
      some (.str "https://github.com") ∧
    (getAllWindowDataJson stBrave).field? "applicationContext" =
      some (.obj [("detectedType", .str "unknown"), ("specificData", .obj [])]) := by
  refine ⟨by decide, rfl, rfl⟩

/-- C2: classification applies the category rules in the fixed order Browser,
IDE, Terminal, File Manager, Document by case-insensitive substring matching
of the keywords against the window class (browser keywords also with the
hyphen stripped); the first matching category wins and no match yields
`"unknown"`. -/
theorem c2_classifier_ordered_first_match (c : String) :
    appTypeOf c = orderedClassify c ∧
    (isBrowserClass c = true → appTypeOf c = "browser") ∧
    (isBrowserClass c = false → isIdeClass c = true → appTypeOf c = "ide") ∧
    (isBrowserClass c = false → isIdeClass c = false → isTerminalClass c = true →
      appTypeOf c = "terminal") ∧
    (isBrowserClass c = false → isIdeClass c = false → isTerminalClass c = false →
      isFileManagerClass c = true → appTypeOf c = "file_manager") ∧
    (isBrowserClass c = false → isIdeClass c = false → isTerminalClass c = false →
      isFileManagerClass c = false → isDocumentClass c = true →
      appTypeOf c = "document") ∧
    (isBrowserClass c = false → isIdeClass c = false → isTerminalClass c = false →
      isFileManagerClass c = false → isDocumentClass c = false →
      appTypeOf c = "unknown") := by
  refine ⟨appTypeOf_eq_orderedClassify c, ?_, ?_, ?_, ?_, ?_, ?_⟩ <;>
    intros <;> simp [appTypeOf, *]

/-- Witness for C2: `"Code-Terminal"` holds an IDE keyword and a terminal
keyword; the earlier-listed IDE category wins. -/
theorem c2_witness : appTypeOf "Code-Terminal" = "ide" := by
  have h := c2_classifier_ordered_first_match "Code-Terminal"
  exact h.2.2.1 (by decide) (by decide)

/-- C3 (amended): each extractor that performs a category check returns its
negative shape when its own keyword test fails — with error text
`"Not a <category> window"` for browser/IDE/terminal/file-manager but
`"Not a document application"` for the document extractor — while the IDE
active-file extractor performs no category check and never returns the
negative shape. -/
theorem c3_amended_negative_shapes (c t : String) (cw : Option String) :
    (isBrowserClass c = false → getBrowserUrlJson c t =
      .obj [("error", .str "Not a browser window"), ("windowClass", .str c),
        ("isBrowser", .bool false)]) ∧
    (isIdeClass c = false → getIdeProjectJson c t cw =
      .obj [("error", .str "Not an IDE window"), ("windowClass", .str c),
        ("isIde", .bool false)]) ∧
    (isTerminalClass c = false → getTerminalCommandJson c t cw =
      .obj [("error", .str "Not a terminal window"), ("windowClass", .str c),
        ("isTerminal", .bool false)]) ∧
    (isFileManagerClass c = false → getFileManagerPathJson c t =
      .obj [("error", .str "Not a file manager window"), ("windowClass", .str c),
        ("isFileManager", .bool false)]) ∧
    (isDocumentClass c = false → getDocumentPathJson c t =
      .obj [("error", .str "Not a document application"), ("windowClass", .str c),
        ("isDocument", .bool false)]) ∧
    (getIdeActiveFileJson c t).field? "error" = none ∧
    (getIdeActiveFileJson c t).field? "isIde" = none := by
  refine ⟨fun h => ?_, fun h => ?_, fun h => ?_, fun h => ?_, fun h => ?_, rfl, rfl⟩ <;>
    simp [getBrowserUrlJson, getIdeProjectJson, getTerminalCommandJson,
      getFileManagerPathJson, getDocumentPathJson, h]

/-- Counterexample for C3 as stated: `"firefox"` is classified `browser`, yet
the IDE active-file operation does not return
`{error: "Not an IDE window", windowClass, isIde: false}` — it has no
category check and extracts from the title. -/
theorem c3_counterexample :
    appTypeOf "firefox" = "browser" ∧
    (getIdeActiveFileJson "firefox" "README.md - proj - Cursor").field? "isIde" = none ∧
    (getIdeActiveFileJson "firefox" "README.md - proj - Cursor").field? "error" = none ∧
    (getIdeActiveFileJson "firefox" "README.md - proj - Cursor").field? "activeFile" =
      some (.str "README.md") := by
  refine ⟨by decide, rfl, rfl, rfl⟩

/-- Witness for C3 (amended): the IDE project extractor on a `firefox` window
returns the uniform negative shape whatever the title. -/
theorem c3_witness :
    getIdeProjectJson "firefox" "Any - Title" none =
      .obj [("error", .str "Not an IDE window"), ("windowClass", .str "firefox"),
        ("isIde", .bool false)] :=
  (c3_amended_negative_shapes "firefox" "Any - Title" none).2.1 (by decide)

/-- C4: with no focused window, every scalar operation returns `""`, the full
snapshot serializes an object containing `error: "No focused window found"`,
`dataAvailable: false` and the numeric timestamp, and no operation fails. -/
theorem c4_no_focused_window (st : ShellState) (h : st.focused? = none) :
    getWinFocusData st = some "" ∧ getWinPID st = "" ∧ getWinClass st = some "" ∧
    getWinRole st = "" ∧ getProcessName st = "" ∧ getProcessPath st = "" ∧
    getProcessCmdline st = "" ∧ getProcessCwd st = "" ∧ getProcessParent st = "" ∧
    getWinGeometry st = "" ∧ getWinWorkspace st = "" ∧
    (getAllWindowDataJson st).field? "error" = some (.str "No focused window found") ∧
    (getAllWindowDataJson st).field? "dataAvailable" = some (.bool false) ∧
    (getAllWindowDataJson st).field? "timestamp" = some (.num st.now) ∧
    getAllWindowData st = stringifyJson (getAllWindowDataJson st) ∧
    ((operations st).all fun p => p.2.isSome) = true := by
  have hops : ((operations st).all fun p => p.2.isSome) = true := by
    rw [operations_isSome_char st, h]
  refine ⟨?_, ?_, ?_, ?_, ?_, ?_, ?_, ?_, ?_, ?_, ?_, ?_, ?_, ?_, rfl, hops⟩ <;>
    simp only [getWinFocusData, getWinPID, getWinClass, getWinRole, getProcessName,
      getProcessPath, getProcessCmdline, getProcessCwd, getProcessParent, getWinGeometry,
      getWinWorkspace, getAllWindowDataJson, h] <;> rfl

/-- Witness for C4 at a concrete empty-focus state. -/
theorem c4_witness :
    getWinFocusData stNone = some "" ∧
    (getAllWindowDataJson stNone).field? "dataAvailable" = some (.bool false) := by
  obtain ⟨h1, _, _, _, _, _, _, _, _, _, _, _, h13, _⟩ := c4_no_focused_window stNone rfl
  exact ⟨h1, h13⟩

/-- C5: refuted as stated.  `getWinFocusData` and `getWinClass` return the
collaborator getter result raw (no `|| ""` guard), so at a focused window
whose `get_title()` / `get_wm_class()` is `null` they hand a non-string to
the D-Bus `s` out-argument — against their own `@returns \x7bstring\x7d`
doc contracts and the `|| ""` pattern of every other call site.  Every other
operation is unconditionally total: the registry is all-string exactly when
the focused window's raw title and class are non-null (or no window is
focused), and the unified-context operation's `JSON.parse` calls always
succeed. -/
theorem c5_raw_getters_violate_string_contract :
    getWinFocusData stNull = none ∧
    getWinClass stNull = none ∧
    ((operations stNull).all fun p => p.2.isSome) = false ∧
    (∀ st : ShellState, (getAppContextE st).isSome = true) ∧
    (∀ st : ShellState, ((operations st).all fun p => p.2.isSome) =
      (match st.focused? with
       | none => true
       | some w => w.title?.isSome && w.wmClass?.isSome)) :=
  ⟨rfl, rfl, (operations_isSome_char stNull).trans rfl,
    getAppContextE_isSome, operations_isSome_char⟩

/-- C6: browser URL extraction.  Strategy 1 (title has `" - "` and `http` or
`www`): the URL is the first `" - "` segment containing `http`/`www` and the
method is `window_title`.  Strategy 2 (otherwise, title has `"://"`): the URL
is the first `https?://\S+` run.  Neither: URL `""`, method
`title_parsing_failed`.  The spec's two test vectors evaluate as stated. -/
theorem c6_browser_url (c t : String) (hb : isBrowserClass c = true) :
    ((jsIncludes t " - " && (jsIncludes t "http" || jsIncludes t "www")) = true →
      (getBrowserUrlJson c t).field? "url" =
        some (.str (((jsSplit t " - ").find? fun part =>
          jsIncludes part "http" || jsIncludes part "www").getD "")) ∧
      (getBrowserUrlJson c t).field? "extractionMethod" = some (.str "window_title")) ∧
    ((jsIncludes t " - " && (jsIncludes t "http" || jsIncludes t "www")) = false →
      jsIncludes t "://" = true →
      (getBrowserUrlJson c t).field? "url" =
        some (.str (match matchHttpUrl t.data with
          | some m => (⟨m⟩ : String)
          | none => ""))) ∧
    ((jsIncludes t " - " && (jsIncludes t "http" || jsIncludes t "www")) = false →
      jsIncludes t "://" = false →
      (getBrowserUrlJson c t).field? "url" = some (.str "") ∧
      (getBrowserUrlJson c t).field? "extractionMethod" =
        some (.str "title_parsing_failed")) ∧
    getBrowserUrlJson "Brave-browser" "GitHub - https://github.com - Brave" =
      .obj [("url", .str "https://github.com"),
        ("title", .str "GitHub - https://github.com - Brave"),
        ("browserType", .str "Brave-browser"), ("isBrowser", .bool true),
        ("extractionMethod", .str "window_title")] ∧
    getBrowserUrlJson "Brave-browser" "Untitled Document" =
      .obj [("url", .str ""), ("title", .str "Untitled Document"),
        ("browserType", .str "Brave-browser"), ("isBrowser", .bool true),
        ("extractionMethod", .str "title_parsing_failed")] := by
  rw [getBrowserUrlJson_pos hb]
  refine ⟨?_, ?_, ?_, rfl, rfl⟩
  · intro h1
    obtain ⟨p0, hfind, hpred, hne0⟩ := strat1_find t (Bool.and_eq_true_iff.mp h1).2
    have hurl : browserUrlFromTitle t = p0 := by
      rw [browserUrlFromTitle, if_pos h1, hfind]
      rfl
    constructor
    · show some (JsVal.str (browserUrlFromTitle t)) = _
      rw [hurl, hfind]
      rfl
    · show some (JsVal.str (if browserUrlFromTitle t = "" then "title_parsing_failed"
        else "window_title")) = _
      rw [hurl, if_neg hne0]
  · intro h1 h2
    have hurl : browserUrlFromTitle t =
        (match matchHttpUrl t.data with
          | some m => (⟨m⟩ : String)
          | none => "") := by
      rw [browserUrlFromTitle, if_neg (by rw [h1]; decide), if_pos h2]
    show some (JsVal.str (browserUrlFromTitle t)) = _
    rw [hurl]
  · intro h1 h2
    have hurl : browserUrlFromTitle t = "" := by
      rw [browserUrlFromTitle, if_neg (by rw [h1]; decide), if_neg (by rw [h2]; decide)]
    refine ⟨?_, ?_⟩
    · show some (JsVal.str (browserUrlFromTitle t)) = _
      rw [hurl]
    · show some (JsVal.str (if browserUrlFromTitle t = "" then "title_parsing_failed"
        else "window_title")) = _
      rw [hurl]
      rfl

/-- Witness for C6 at the spec's browser example. -/
theorem c6_witness :
    (getBrowserUrlJson "Brave-browser" "GitHub - https://github.com - Brave").field?
      "extractionMethod" = some (.str "window_title") := by
  have h := c6_browser_url "Brave-browser" "GitHub - https://github.com - Brave" (by decide)
  exact (h.1 (by decide)).2

/-- C7: the IDE active-file operation accepts the first `" - "` segment
exactly when the title contains `" - "` and that segment has a `.`, no `/`,
and fewer than 50 characters (method `window_title`); otherwise `activeFile`
is `""` with method `title_parsing_failed`; the two spec vectors hold. -/
theorem c7_ide_active_file (c t : String) :
    ((jsIncludes t " - " = true ∧
      jsIncludes ((jsSplit t " - ").headD "") "." = true ∧
      jsIncludes ((jsSplit t " - ").headD "") "/" = false ∧
      ((jsSplit t " - ").headD "").length < 50) →
      (getIdeActiveFileJson c t).field? "activeFile" =
        some (.str ((jsSplit t " - ").headD "")) ∧
      (getIdeActiveFileJson c t).field? "extractionMethod" = some (.str "window_title")) ∧
    (¬(jsIncludes t " - " = true ∧
      jsIncludes ((jsSplit t " - ").headD "") "." = true ∧
      jsIncludes ((jsSplit t " - ").headD "") "/" = false ∧
      ((jsSplit t " - ").headD "").length < 50) →
      (getIdeActiveFileJson c t).field? "activeFile" = some (.str "") ∧
      (getIdeActiveFileJson c t).field? "extractionMethod" =
        some (.str "title_parsing_failed")) ∧
    (getIdeActiveFileJson "Cursor" "README.md - myproject - Cursor").field? "activeFile" =
      some (.str "README.md") ∧
    (getIdeActiveFileJson "Cursor"
      "/home/user/very/long/path/that/looks/like/a/path.ext - project - Cursor").field?
      "activeFile" = some (.str "") := by
  refine ⟨?_, ?_, rfl, rfl⟩
  · rintro ⟨h1, h2, h3, h4⟩
    have hz : ideActiveFileOf t = (jsSplit t " - ").headD "" := by
      rw [ideActiveFileOf, if_pos h1, if_pos (by
        simp only [Bool.and_eq_true, Bool.not_eq_true', decide_eq_true_eq]
        exact ⟨⟨h2, h3⟩, h4⟩)]
    have hne0 : (jsSplit t " - ").headD "" ≠ "" := ne_empty_of_includes (by decide) h2
    constructor
    · show some (JsVal.str (ideActiveFileOf t)) = _
      rw [hz]
    · show some (JsVal.str (if ideActiveFileOf t = "" then "title_parsing_failed"
        else "window_title")) = _
      rw [hz, if_neg hne0]
  · intro hneg
    have hz : ideActiveFileOf t = "" := by
      rw [ideActiveFileOf]
      by_cases h1 : jsIncludes t " - " = true
      · rw [if_pos h1, if_neg ?_]
        intro hh
        simp only [Bool.and_eq_true, Bool.not_eq_true', decide_eq_true_eq] at hh
        exact hneg ⟨h1, hh.1.1, hh.1.2, hh.2⟩
      · rw [if_neg h1]
    refine ⟨?_, ?_⟩
    · show some (JsVal.str (ideActiveFileOf t)) = _
      rw [hz]
    · show some (JsVal.str (if ideActiveFileOf t = "" then "title_parsing_failed"
        else "window_title")) = _
      rw [hz]
      rfl

/-- Witness for C7 at the spec's IDE example. -/
theorem c7_witness :
    (getIdeActiveFileJson "Cursor" "README.md - myproject - Cursor").field?
      "extractionMethod" = some (.str "window_title") := by
  have h := c7_ide_active_file "Cursor" "README.md - myproject - Cursor"
  exact (h.1 (by refine ⟨by decide, by decide, by decide, by decide⟩)).2

/-- C8 (amended): for a document-classified window the regex strategy runs
whenever the title contains `/` (empty `documentPath` if it fails); the
`" - "` fallback segment is used only when the title contains no `/`;
otherwise `documentPath` is `""` with `title_parsing_failed`. -/
theorem c8_amended_document_path (c t : String) (hd : isDocumentClass c = true) :
    (jsIncludes t "/" = true →
      (getDocumentPathJson c t).field? "documentPath" =
        some (.str (match docPathMatch t.data with
          | some m => (⟨m⟩ : String)
          | none => ""))) ∧
    (jsIncludes t "/" = true → docPathMatch t.data = none →
      (getDocumentPathJson c t).field? "documentPath" = some (.str "") ∧
      (getDocumentPathJson c t).field? "extractionMethod" =
        some (.str "title_parsing_failed")) ∧
    (jsIncludes t "/" = false → jsIncludes t " - " = true →
      (getDocumentPathJson c t).field? "documentPath" =
        some (.str (if jsIncludes ((jsSplit t " - ").headD "") "." = true then
          (jsSplit t " - ").headD "" else ""))) ∧
    (jsIncludes t "/" = false → jsIncludes t " - " = false →
      (getDocumentPathJson c t).field? "documentPath" = some (.str "") ∧
      (getDocumentPathJson c t).field? "extractionMethod" =
        some (.str "title_parsing_failed")) ∧
    (getDocumentPathJson "evince" "Report - /home/u/report.pdf").field? "documentPath" =
      some (.str "/home/u/report.pdf") ∧
    (getDocumentPathJson "okular" "notes.txt - Okular").field? "documentPath" =
      some (.str "notes.txt") := by
  rw [getDocumentPathJson_pos hd]
  refine ⟨?_, ?_, ?_, ?_, rfl, rfl⟩
  · intro h1
    show some (JsVal.str (documentPathOf t)) = _
    rw [documentPathOf, if_pos h1]
  · intro h1 hm
    have hz : documentPathOf t = "" := by
      rw [documentPathOf, if_pos h1, hm]
    exact ⟨by show some (JsVal.str (documentPathOf t)) = _; rw [hz],
      by show some (JsVal.str (if documentPathOf t = "" then "title_parsing_failed"
        else "window_title")) = _; rw [hz]; rfl⟩
  · intro h1 h2
    show some (JsVal.str (documentPathOf t)) = _
    rw [documentPathOf, if_neg (by rw [h1]; decide), if_pos h2]
  · intro h1 h2
    have hz : documentPathOf t = "" := by
      rw [documentPathOf, if_neg (by rw [h1]; decide), if_neg (by rw [h2]; decide)]
    exact ⟨by show some (JsVal.str (documentPathOf t)) = _; rw [hz],
      by show some (JsVal.str (if documentPathOf t = "" then "title_parsing_failed"
        else "window_title")) = _; rw [hz]; rfl⟩

/-- Counterexample for C8 as stated: with document class and title
`"a.b/ - x"`, the title contains `/` so only the regex runs and fails, yet the
title contains `" - "` and its first segment `"a.b/"` contains a `.`; the
claim predicts `documentPath = "a.b/"`, the code returns `""`. -/
theorem c8_counterexample :
    isDocumentClass "evince" = true ∧
    jsIncludes "a.b/ - x" "/" = true ∧
    docPathMatch ("a.b/ - x").data = none ∧
    jsIncludes "a.b/ - x" " - " = true ∧
    jsIncludes ((jsSplit "a.b/ - x" " - ").headD "") "." = true ∧
    (jsSplit "a.b/ - x" " - ").headD "" = "a.b/" ∧
    (getDocumentPathJson "evince" "a.b/ - x").field? "documentPath" = some (.str "") ∧
    ("" : String) ≠ "a.b/" := by
  refine ⟨by decide, by decide, by decide, by decide, by decide, by decide, rfl, by decide⟩

/-- Witness for C8 (amended) at a path-bearing document title. -/
theorem c8_witness :
    (getDocumentPathJson "evince" "Report - /home/u/report.pdf").field? "documentPath" =
      some (.str (match docPathMatch ("Report - /home/u/report.pdf").data with
        | some m => (⟨m⟩ : String)
        | none => "")) := by
  have h := c8_amended_document_path "evince" "Report - /home/u/report.pdf" (by decide)
  exact h.1 (by decide)

/-- C9: the `appType` of the unified-context response depends only on the
window class: two runs agreeing on the class but differing in title (and in
pid, cwd and timestamp) produce the same `appType`. -/
theorem c9_apptype_title_noninterference (c t1 t2 : String) (pid1 pid2 : Nat)
    (cw1 cw2 : Option String) (n1 n2 : Nat) :
    (getAppContextObj? c t1 pid1 cw1 n1).bind (fun j => j.field? "appType") =
      (getAppContextObj? c t2 pid2 cw2 n2).bind (fun j => j.field? "appType") := by
  rw [getAppContext_appType, getAppContext_appType]

/-- C10: the browser tab-info operation performs no browser check: for every
focused window it serializes exactly `{title, windowClass, timestamp, note}`
and never the negative `{error, windowClass, isBrowser: false}` shape. -/
theorem c10_tab_info_no_check (st : ShellState) (w : MetaWindow)
    (h : st.focused? = some w) :
    getBrowserTabInfo st =
      stringifyJson (.obj [("title", .str (w.title?.getD "")),
        ("windowClass", .str (w.wmClass?.getD "")), ("timestamp", .num st.now),
        ("note", .str "Full tab details require browser-specific integration")]) ∧
    (getBrowserTabInfoJson (w.wmClass?.getD "") (w.title?.getD "") st.now).field?
      "error" = none ∧
    (getBrowserTabInfoJson (w.wmClass?.getD "") (w.title?.getD "") st.now).field?
      "isBrowser" = none ∧
    (getBrowserTabInfoJson (w.wmClass?.getD "") (w.title?.getD "") st.now).field?
      "title" = some (.str (w.title?.getD "")) ∧
    (getBrowserTabInfoJson (w.wmClass?.getD "") (w.title?.getD "") st.now).field?
      "windowClass" = some (.str (w.wmClass?.getD "")) ∧
    (getBrowserTabInfoJson (w.wmClass?.getD "") (w.title?.getD "") st.now).field?
      "timestamp" = some (.num st.now) ∧
    (getBrowserTabInfoJson (w.wmClass?.getD "") (w.title?.getD "") st.now).field?
      "note" =
      some (.str "Full tab details require browser-specific integration") := by
  refine ⟨?_, rfl, rfl, rfl, rfl, rfl, rfl⟩
  simp [getBrowserTabInfo, h, getBrowserTabInfoJson]

/-- Witness for C10 at the Brave state. -/
theorem c10_witness :
    (getBrowserTabInfoJson (wBrave.wmClass?.getD "") (wBrave.title?.getD "")
      stBrave.now).field? "isBrowser" = none := by
  have h := c10_tab_info_no_check stBrave wBrave rfl
  exact h.2.2.1

end AWD
